import Mathlib

/-!
Verification development for the ROV2CZML telemetry-to-CZML conversion
pipeline.  The definitions below are a shallow embedding of the two source
variants (`main.py` and `main_czml-writer.py`): Python floats are modelled
as real numbers, CSV rows as structures of optional fields, absolute
timestamps (second resolution) as integers, and the pyproj coordinate
transformers — external library code — as abstract function parameters.
-/

namespace ROV2CZML

/-- Quaternion stored as components [x, y, z, w], matching the source's
list layout. -/
@[ext]
structure Quat where
  x : ℝ
  y : ℝ
  z : ℝ
  w : ℝ

/-- Squared magnitude of a quaternion. -/
noncomputable def normSq (q : Quat) : ℝ :=
  q.x ^ 2 + q.y ^ 2 + q.z ^ 2 + q.w ^ 2

/-- Embedding of `quaternion_multiply(q1, q2)` (main_czml-writer.py,
lines 244-258): Hamilton product on [x, y, z, w] components. -/
noncomputable def quaternion_multiply (q1 q2 : Quat) : Quat :=
  ⟨q1.w * q2.x + q1.x * q2.w + q1.y * q2.z - q1.z * q2.y,
   q1.w * q2.y - q1.x * q2.z + q1.y * q2.w + q1.z * q2.x,
   q1.w * q2.z + q1.x * q2.y - q1.y * q2.x + q1.z * q2.w,
   q1.w * q2.w - q1.x * q2.x - q1.y * q2.y - q1.z * q2.z⟩

/-- Embedding of `quaternion_conjugate(q)` (main_czml-writer.py,
lines 260-267). -/
noncomputable def quaternion_conjugate (q : Quat) : Quat :=
  ⟨-q.x, -q.y, -q.z, q.w⟩

/-- Embedding of Python's `math.radians`. -/
noncomputable def radians (d : ℝ) : ℝ := d * Real.pi / 180

/-- Python's float modulo `a % b` for positive `b`:
result has the sign of the divisor, `a - b * floor (a / b)`. -/
noncomputable def pymod (a b : ℝ) : ℝ := a - b * ⌊a / b⌋

/-- Embedding of `heading_to_quaternion(heading_deg)` (main.py,
lines 132-147).  Note the plain subtraction `90 - heading_deg`,
with no modulo reduction. -/
noncomputable def heading_to_quaternion (heading_deg : ℝ) : Quat :=
  let heading_rad := radians (90 - heading_deg)
  ⟨0, 0, Real.sin (heading_rad / 2), Real.cos (heading_rad / 2)⟩

/-- Embedding of `euler_to_quaternion(heading_deg, pitch_deg, roll_deg)`
(main_czml-writer.py, lines 269-306).  The heading is reduced modulo 360
before the half-angle construction; the returned list is [qx, qy, qz, qw]. -/
noncomputable def euler_to_quaternion (heading_deg pitch_deg roll_deg : ℝ) : Quat :=
  let yaw := radians (pymod (90 - heading_deg) 360)
  let pitch := radians pitch_deg
  let roll := radians roll_deg
  let cy := Real.cos (yaw * 0.5)
  let sy := Real.sin (yaw * 0.5)
  let cp := Real.cos (pitch * 0.5)
  let sp := Real.sin (pitch * 0.5)
  let cr := Real.cos (roll * 0.5)
  let sr := Real.sin (roll * 0.5)
  ⟨sr * cp * cy - cr * sp * sy,
   cr * sp * cy + sr * cp * sy,
   cr * cp * sy - sr * sp * cy,
   cr * cp * cy + sr * sp * sy⟩

/-- Embedding of `get_precise_model_correction()` (main_czml-writer.py,
lines 308-318): the identity quaternion. -/
def get_precise_model_correction : Quat := ⟨0, 0, 0, 1⟩

/-- A 3x3 matrix as used by `matrix_to_quaternion`: field `mij` is the
Python expression `m[i][j]`. -/
structure Mat3 where
  m00 : ℝ
  m01 : ℝ
  m02 : ℝ
  m10 : ℝ
  m11 : ℝ
  m12 : ℝ
  m20 : ℝ
  m21 : ℝ
  m22 : ℝ

/-- Embedding of `matrix_to_quaternion(m)` (main_czml-writer.py,
lines 209-242): trace-based conversion with branch selection on the
dominant diagonal term. -/
noncomputable def matrix_to_quaternion (m : Mat3) : Quat :=
  let trace := m.m00 + m.m11 + m.m22
  if trace > 0 then
    let s := Real.sqrt (trace + 1) * 2
    ⟨(m.m21 - m.m12) / s, (m.m02 - m.m20) / s, (m.m10 - m.m01) / s, 0.25 * s⟩
  else if m.m00 > m.m11 ∧ m.m00 > m.m22 then
    let s := Real.sqrt (1 + m.m00 - m.m11 - m.m22) * 2
    ⟨0.25 * s, (m.m01 + m.m10) / s, (m.m02 + m.m20) / s, (m.m21 - m.m12) / s⟩
  else if m.m11 > m.m22 then
    let s := Real.sqrt (1 + m.m11 - m.m00 - m.m22) * 2
    ⟨(m.m01 + m.m10) / s, 0.25 * s, (m.m12 + m.m21) / s, (m.m02 - m.m20) / s⟩
  else
    let s := Real.sqrt (1 + m.m22 - m.m00 - m.m11) * 2
    ⟨(m.m02 + m.m20) / s, (m.m12 + m.m21) / s, 0.25 * s, (m.m10 - m.m01) / s⟩

/-- The pair of pyproj transformers produced by `initialize_transformers`
(main_czml-writer.py, lines 98-152).  The transformations themselves are
external pyproj library code, so they are abstract functions here:
`utm_to_ecef` maps (easting, northing, ellipsoidal height) to ECEF (x,y,z);
`utm_to_geodetic` maps (easting, northing) to (longitude, latitude) in
degrees. -/
structure Transformers where
  utm_to_ecef : ℝ → ℝ → ℝ → ℝ × ℝ × ℝ
  utm_to_geodetic : ℝ → ℝ → ℝ × ℝ

/-- Embedding of `get_utm_zone(lat, lon)` (main_czml-writer.py,
lines 70-96).  Latitude/longitude are modelled as rationals (they are only
compared and floored).  The Norway override is checked first; the Svalbard
overrides apply only for longitudes in [0, 42); everything else falls
through to the standard 6-degree band formula. -/
def get_utm_zone (lat lon : ℚ) : ℤ :=
  if 56 ≤ lat ∧ lat < 64 ∧ 3 ≤ lon ∧ lon < 12 then 32
  else if 72 ≤ lat ∧ lat < 84 then
    if 0 ≤ lon ∧ lon < 9 then 31
    else if 9 ≤ lon ∧ lon < 21 then 33
    else if 21 ≤ lon ∧ lon < 33 then 35
    else if 33 ≤ lon ∧ lon < 42 then 37
    else ⌊(lon + 180) / 6⌋ + 1
  else ⌊(lon + 180) / 6⌋ + 1

/-- A parsed CSV row (main_czml-writer.py `parse_csv`, lines 12-52).
Numeric fields are `none` when the CSV value was blank or unparsable;
timestamps are absolute times at second resolution, modelled as integers;
latitude/longitude are only used for zone selection and are modelled as
rationals. -/
structure Row where
  timestamp : Option ℤ
  latitude : Option ℚ
  longitude : Option ℚ
  utm_x : Option ℝ
  utm_y : Option ℝ
  depth : Option ℝ
  heading : Option ℝ
  pitch : Option ℝ
  roll : Option ℝ
  o2_concentration : Option ℝ
  temperature : Option ℝ
  sensor_name : Option String
  event_value : Option String
  event_free_text : Option String
  image_filename : Option String

/-- Embedding of `seconds_between(start, current)` (main_czml-writer.py,
lines 54-68) on already-parsed timestamps. -/
def seconds_between (start_time current_time : ℤ) : ℤ :=
  current_time - start_time

/-- Embedding of `initialize_transformers(data)` (main_czml-writer.py,
lines 98-152), parameterized by the external pyproj factory `mk` that
builds the transformer pair from a zone number and a hemisphere flag
(`true` = north).  The first row carrying both latitude and longitude
selects the zone; with no such row the documented default is zone 4 north. -/
def initialize_transformers (mk : ℤ → Bool → Transformers) : List Row → Transformers
  | [] => mk 4 true
  | row :: rest =>
    match row.latitude, row.longitude with
    | some lat, some lon => mk (get_utm_zone lat lon) (decide (0 ≤ lat))
    | _, _ => initialize_transformers mk rest

/-- Embedding of `utm_to_cartesian(utm_x, utm_y, depth, t)`
(main_czml-writer.py, lines 154-175): fixed -30 m geoid offset, then the
external UTM-to-ECEF transform. -/
def utm_to_cartesian (utm_x utm_y depth : ℝ) (t : Transformers) : ℝ × ℝ × ℝ :=
  let ellipsoidal_height := depth - 30
  t.utm_to_ecef utm_x utm_y ellipsoidal_height

/-- Embedding of `enu_to_ecef_matrix(utm_x, utm_y, t)` (main_czml-writer.py,
lines 177-207).  The function returns the list [col1, col2, col3] of east,
north, up columns, so the Python expression `m[i][j]` selects component j
of column i; field `mij` below holds exactly that entry. -/
noncomputable def enu_to_ecef_matrix (utm_x utm_y : ℝ) (t : Transformers) : Mat3 :=
  let g := t.utm_to_geodetic utm_x utm_y
  let lon_rad := radians g.1
  let lat_rad := radians g.2
  let sinLon := Real.sin lon_rad
  let cosLon := Real.cos lon_rad
  let sinLat := Real.sin lat_rad
  let cosLat := Real.cos lat_rad
  ⟨-sinLon, -sinLat * cosLon, cosLat * cosLon,
   cosLon, -sinLat * sinLon, cosLat * sinLon,
   0, cosLat, sinLat⟩

/-- A CZML packet, restricted to the structure and fields the conversion
actually emits (main_czml-writer.py `build_czml`): the document packet
(clock interval bounds, current time, playback multiplier), the primary
Hercules entity (availability, time-tagged position and optional
orientation arrays), a sensor-label child, and an event-marker child. -/
inductive Packet where
  | document (startTime endTime currentTime : ℤ) (multiplier : ℤ)
  | hercules (availStart availEnd : ℤ)
      (positions : List (ℤ × (ℝ × ℝ × ℝ))) (orientations : Option (List (ℤ × Quat)))
  | sensor (sensorName : String) (idx : ℕ) (parent : String)
      (availStart availEnd : ℤ) (o2 temp : ℝ)
  | event (eventType : String) (time : ℤ) (parent : String)
      (availStart availEnd : ℤ) (image : String) (text : String)
      (rgba : List ℕ) (scale : ℚ)

/-- The series epoch: `data[0]["Timestamp"]` (build_czml, line 341). -/
def seriesStart (data : List Row) : ℤ :=
  ((data.head?.bind Row.timestamp).getD 0)

/-- The series end: `data[-1]["Timestamp"]` (build_czml, line 342). -/
def seriesEnd (data : List Row) : ℤ :=
  ((data.getLast?.bind Row.timestamp).getD 0)

/-- Position entry produced by one loop iteration of `build_czml`
(lines 371-381): requires Timestamp, UTM_X, UTM_Y and Depth, yielding the
time offset and the ECEF coordinates. -/
def rowPos (t : Transformers) (start : ℤ) (row : Row) : Option (ℤ × (ℝ × ℝ × ℝ)) :=
  match row.timestamp, row.utm_x, row.utm_y, row.depth with
  | some ts, some x, some y, some d =>
    some (seconds_between start ts, utm_to_cartesian x y d t)
  | _, _, _, _ => none

/-- Orientation entry produced by one loop iteration of `build_czml`
(lines 383-473).  Rows with index below 20 force level north-pointing
flight: the local quaternion is the identity and heading/pitch/roll are
not consulted.  From index 20 on, the local quaternion comes from
`euler_to_quaternion` (with pitch and roll defaulting to 0 when absent),
is composed with the identity model correction, and is then taken to the
ECEF frame by the ENU quaternion.  No normalization is applied anywhere. -/
noncomputable def rowOrientation (t : Transformers) (start : ℤ) (i : ℕ) (row : Row) :
    Option (ℤ × Quat) :=
  match row.timestamp, row.utm_x, row.utm_y, row.depth with
  | some ts, some x, some y, some _ =>
    let offset := seconds_between start ts
    if i < 20 then
      let q_north : Quat := ⟨0, 0, 0, 1⟩
      let q_transform := matrix_to_quaternion (enu_to_ecef_matrix x y t)
      some (offset, quaternion_multiply q_transform q_north)
    else
      match row.heading with
      | some h =>
        let q_local := euler_to_quaternion h (row.pitch.getD 0) (row.roll.getD 0)
        let q_local_corrected := quaternion_multiply get_precise_model_correction q_local
        let q_transform := matrix_to_quaternion (enu_to_ecef_matrix x y t)
        some (offset, quaternion_multiply q_transform q_local_corrected)
      | none => none
  | _, _, _, _ => none

/-- The position/orientation accumulation loop of `build_czml`
(lines 371-473), threading the 0-based row index and appending entries in
row order. -/
noncomputable def posOrientLists (t : Transformers) (start : ℤ) :
    ℕ → List Row → List (ℤ × (ℝ × ℝ × ℝ)) × List (ℤ × Quat)
  | _, [] => ([], [])
  | i, row :: rest =>
    let tail := posOrientLists t start (i + 1) rest
    ((rowPos t start row).toList ++ tail.1,
     (rowOrientation t start i row).toList ++ tail.2)

/-- The sensor-label emission of one iteration of the child loop of
`build_czml` (lines 529-548): every 5th row (0-based) carrying both an O2
concentration and a temperature yields one sensor-label packet parented
to Hercules with the row's availability interval. -/
def rowSensor (i : ℕ) (row : Row) (availStart availEnd : ℤ) : Option Packet :=
  if i % 5 = 0 then
    match row.o2_concentration, row.temperature with
    | some o2, some temp =>
      some (Packet.sensor (row.sensor_name.getD "Sensor") i "Hercules"
        availStart availEnd o2 temp)
    | _, _ => none
  else none

/-- The event-marker emission of one iteration of the child loop of
`build_czml` (lines 551-603): a row with a non-blank event category and a
non-empty image reference yields one event packet, with color and scale
selected by category (FREE_FORM, HIGHLIGHT, or the default entry). -/
def rowEvent (row : Row) (time availStart availEnd : ℤ) : Option Packet :=
  match row.event_value with
  | some ev =>
    if ev.trim ≠ "" then
      let event_type := ev.trim
      let image := row.image_filename.getD ""
      if image ≠ "" then
        let style :=
          if event_type = "FREE_FORM" then (([0, 100, 0, 179] : List ℕ), (1 : ℚ) / 2)
          else if event_type = "HIGHLIGHT" then ([184, 134, 11, 179], 3 / 5)
          else ([255, 255, 255, 179], 1 / 2)
        some (Packet.event event_type time "Hercules" availStart availEnd image
          (row.event_free_text.getD "") style.1 style.2)
      else none
    else none
  | none => none

/-- Child packets produced for one row by the second loop of `build_czml`
(lines 520-603): rows without a timestamp are skipped; otherwise the
availability interval [t, t+2] is computed once and the sensor label (if
any) precedes the event marker (if any). -/
def rowChildren (i : ℕ) (row : Row) : List Packet :=
  match row.timestamp with
  | none => []
  | some ts =>
    (rowSensor i row ts (ts + 2)).toList ++ (rowEvent row ts ts (ts + 2)).toList

/-- The full child-packet loop of `build_czml` (lines 520-603), in row
order, starting at index `i`. -/
def childPackets : ℕ → List Row → List Packet
  | _, [] => []
  | i, row :: rest => rowChildren i row ++ childPackets (i + 1) rest

/-- Embedding of `build_czml(data)` (main_czml-writer.py, lines 320-605),
parameterized by the external pyproj factory `mk`.  An empty input returns
the empty packet list (line 335-336); when no row yields a valid position
the result is the document packet alone (lines 475-477); otherwise the
output is the document packet, then the Hercules entity (with the
orientation array attached only when non-empty), then the per-row child
packets in row order. -/
noncomputable def build_czml (mk : ℤ → Bool → Transformers) (data : List Row) :
    List Packet :=
  match data with
  | [] => []
  | _ :: _ =>
    let t := initialize_transformers mk data
    let startT := seriesStart data
    let endT := seriesEnd data
    let document_packet := Packet.document startT endT startT 10
    let lists := posOrientLists t startT 0 data
    if lists.1.isEmpty then [document_packet]
    else
      let orientations := if lists.2.isEmpty then none else some lists.2
      let hercules_packet := Packet.hercules startT endT lists.1 orientations
      document_packet :: hercules_packet :: childPackets 0 data

/-- Embedding of Python's single-character `str.replace(old, new)` at the
character-list level: every occurrence of `old` is replaced by the
character list `new` (empty list = deletion). -/
def pyReplace (s : List Char) (old : Char) (new : List Char) : List Char :=
  match s with
  | [] => []
  | c :: rest => (if c = old then new else [c]) ++ pyReplace rest old new

/-- Embedding of the `safe_timestamp` computation (main.py line 317,
main_czml-writer.py line 568): remove all colons and dashes from the
timestamp string and replace the single T by an underscore. -/
def safe_timestamp (ts : List Char) : List Char :=
  pyReplace (pyReplace (pyReplace ts ':' []) '-' []) 'T' ['_']

/-- Embedding of the event id derivation (main.py line 318,
main_czml-writer.py line 569): the string Event_{event_type}_{safe_time}. -/
def event_id (event_type ts : List Char) : List Char :=
  "Event_".data ++ event_type ++ "_".data ++ safe_timestamp ts

/-- A timestamp string in the canonical CSV contract format
YYYY-MM-DDTHH:MM:SSZ (the format the parse loops name explicitly in both
sources): twenty characters with digits and fixed separators. -/
def validTs : List Char → Bool
  | [y1, y2, y3, y4, c1, mo1, mo2, c2, d1, d2, c3, h1, h2, c4, mi1, mi2, c5, s1, s2, c6] =>
    y1.isDigit && y2.isDigit && y3.isDigit && y4.isDigit &&
    mo1.isDigit && mo2.isDigit && d1.isDigit && d2.isDigit &&
    h1.isDigit && h2.isDigit && mi1.isDigit && mi2.isDigit &&
    s1.isDigit && s2.isDigit &&
    c1 = '-' && c2 = '-' && c3 = 'T' && c4 = ':' && c5 = ':' && c6 = 'Z'
  | _ => false

/-- Availability interval of a child packet (sensor label or event
marker); the document and entity packets are not children. -/
def childAvail : Packet → Option (ℤ × ℤ)
  | Packet.sensor _ _ _ s e _ _ => some (s, e)
  | Packet.event _ _ _ s e _ _ _ _ => some (s, e)
  | _ => none

/-- Whether a packet is a sensor-label child packet. -/
def isSensorPacket : Packet → Bool
  | Packet.sensor .. => true
  | _ => false

/-- Number of sensor-label packets in a packet list. -/
def sensorCount (ps : List Packet) : ℕ :=
  (ps.filter isSensorPacket).length

/-- The sensor-label emission condition of the claim: 0-based index is a
multiple of the stride 5 and both designated sensor fields are present. -/
def sensorEligible (i : ℕ) (row : Row) : Bool :=
  i % 5 = 0 && row.o2_concentration.isSome && row.temperature.isSome

/-- Number of sensor-eligible rows, counting from start index `i`. -/
def countEligibleFrom : ℕ → List Row → ℕ
  | _, [] => 0
  | i, row :: rest =>
    (if sensorEligible i row then 1 else 0) + countEligibleFrom (i + 1) rest

/-- A row that passes the position guard of the `build_czml` loop:
Timestamp, UTM_X, UTM_Y and Depth all present. -/
def hasPosFields (row : Row) : Bool :=
  row.timestamp.isSome && row.utm_x.isSome && row.utm_y.isSome && row.depth.isSome

/-- A fixed concrete transformer pair used to instantiate the abstract
pyproj factory in concrete evaluations: the ECEF map is the identity on
its inputs and the geodetic inverse returns the origin. -/
def refT : Transformers :=
  ⟨fun x y z => (x, y, z), fun _ _ => (0, 0)⟩

/-- A concrete pyproj factory returning `refT` for every zone and
hemisphere. -/
def mkRef : ℤ → Bool → Transformers := fun _ _ => refT

/-- A complete telemetry row with the given timestamp and sensor readings,
used to build concrete fixtures. -/
def baseRow (ts : ℤ) (o2 temp : Option ℝ) : Row :=
  { timestamp := some ts
    latitude := some 60
    longitude := some 10
    utm_x := some 500000
    utm_y := some 6650000
    depth := some (-1000)
    heading := some 100
    pitch := none
    roll := none
    o2_concentration := o2
    temperature := temp
    sensor_name := none
    event_value := none
    event_free_text := none
    image_filename := none }

/-- The 12-record fixture of the sensor-stride property: records at
indices 5 and 10 each lack one of the two designated sensor fields, and
every record carries a timestamp and a full position. -/
def fixtureRows : List Row :=
  (List.range 12).map fun i =>
    baseRow i (if i = 5 then none else some 1) (if i = 10 then none else some 2)

/-- Reducing the argument of the Python float modulo by one full period
of the (positive) divisor leaves the result unchanged. -/
theorem pymod_sub_period (a : ℝ) : pymod (a - 360) 360 = pymod a 360 := by
  unfold pymod
  have hdiv : (a - 360) / 360 = a / 360 - 1 := by ring
  rw [hdiv, Int.floor_sub_one]
  push_cast
  ring

/-- C1 (amended): in the czml-writer variant, whose heading-to-yaw
conversion reduces `(90 - heading)` modulo 360, the quaternion produced
for heading h + 360 is identical to the one produced for heading h (for
any pitch and roll); in particular heading 0 and heading 360 agree.  The
main.py variant, settled by the counterexample, uses plain subtraction
and does not satisfy this. -/
theorem euler_to_quaternion_heading_mod_360 (h p r : ℝ) :
    euler_to_quaternion (h + 360) p r = euler_to_quaternion h p r := by
  have key : pymod (90 - (h + 360)) 360 = pymod (90 - h) 360 := by
    have harg : (90 : ℝ) - (h + 360) = (90 - h) - 360 := by ring
    rw [harg, pymod_sub_period]
  simp only [euler_to_quaternion]
  rw [key]

/-- C1 (counterexample): main.py's `heading_to_quaternion` converts the
heading with plain floating subtraction `90 - heading`, so heading 0 and
heading 360 produce different (negated, not bit-identical) quaternions. -/
theorem heading_to_quaternion_0_ne_360 :
    heading_to_quaternion 0 ≠ heading_to_quaternion 360 := by
  intro hEq
  have hz := congrArg Quat.z hEq
  simp only [heading_to_quaternion, radians] at hz
  have e1 : ((90 : ℝ) - 0) * Real.pi / 180 / 2 = Real.pi / 4 := by ring
  have e2 : ((90 : ℝ) - 360) * Real.pi / 180 / 2 = -(3 * Real.pi / 4) := by ring
  rw [e1, e2, Real.sin_neg] at hz
  have e3 : 3 * Real.pi / 4 = Real.pi - Real.pi / 4 := by ring
  rw [e3, Real.sin_pi_sub, Real.sin_pi_div_four] at hz
  have hpos : 0 < Real.sqrt 2 := Real.sqrt_pos.mpr (by norm_num)
  linarith [hz]

/-- C2 (amended): the zone selection returns the standard band
floor((lon+180)/6)+1 outside the Norway override (56 <= lat < 64,
3 <= lon < 12) and the Svalbard override (72 <= lat < 84, 0 <= lon < 42);
the Norway region collapses to the fixed zone 32; within 72 <= lat < 84
the four wider zones 31/33/35/37 apply only at the fixed longitude
boundaries 0/9/21/33/42; and the three documented sample points evaluate
as the spec states.  The Svalbard band does not partition all longitudes,
as the counterexample shows. -/
theorem get_utm_zone_spec :
    (∀ lat lon : ℚ, ¬(56 ≤ lat ∧ lat < 64 ∧ 3 ≤ lon ∧ lon < 12) →
      ¬(72 ≤ lat ∧ lat < 84 ∧ 0 ≤ lon ∧ lon < 42) →
      get_utm_zone lat lon = ⌊(lon + 180) / 6⌋ + 1) ∧
    (∀ lat lon : ℚ, 56 ≤ lat → lat < 64 → 3 ≤ lon → lon < 12 →
      get_utm_zone lat lon = 32) ∧
    (∀ lat lon : ℚ, 72 ≤ lat → lat < 84 →
      (0 ≤ lon → lon < 9 → get_utm_zone lat lon = 31) ∧
      (9 ≤ lon → lon < 21 → get_utm_zone lat lon = 33) ∧
      (21 ≤ lon → lon < 33 → get_utm_zone lat lon = 35) ∧
      (33 ≤ lon → lon < 42 → get_utm_zone lat lon = 37)) ∧
    get_utm_zone 60 10 = 32 ∧ get_utm_zone 76 15 = 33 ∧
    get_utm_zone 37 (-122) = 10 := by
  refine ⟨?_, ?_, ?_, by norm_num [get_utm_zone], by norm_num [get_utm_zone],
    by norm_num [get_utm_zone]⟩
  · intro lat lon h1 h2
    unfold get_utm_zone
    rw [if_neg h1]
    by_cases hsv : 72 ≤ lat ∧ lat < 84
    · rw [if_pos hsv,
        if_neg (by rintro ⟨hc1, hc2⟩; exact h2 ⟨hsv.1, hsv.2, hc1, by linarith⟩),
        if_neg (by rintro ⟨hc1, hc2⟩; exact h2 ⟨hsv.1, hsv.2, by linarith, by linarith⟩),
        if_neg (by rintro ⟨hc1, hc2⟩; exact h2 ⟨hsv.1, hsv.2, by linarith, by linarith⟩),
        if_neg (by rintro ⟨hc1, hc2⟩; exact h2 ⟨hsv.1, hsv.2, by linarith, hc2⟩)]
    · rw [if_neg hsv]
  · intro lat lon h1 h2 h3 h4
    unfold get_utm_zone
    rw [if_pos ⟨h1, h2, h3, h4⟩]
  · intro lat lon h1 h2
    have hnor : ¬(56 ≤ lat ∧ lat < 64 ∧ 3 ≤ lon ∧ lon < 12) := by
      rintro ⟨-, hlt, -, -⟩; linarith
    refine ⟨fun ha hb => ?_, fun ha hb => ?_, fun ha hb => ?_, fun ha hb => ?_⟩ <;>
      unfold get_utm_zone <;> rw [if_neg hnor, if_pos ⟨h1, h2⟩]
    · rw [if_pos ⟨ha, hb⟩]
    · rw [if_neg (by rintro ⟨-, hc⟩; linarith), if_pos ⟨ha, hb⟩]
    · rw [if_neg (by rintro ⟨-, hc⟩; linarith),
        if_neg (by rintro ⟨-, hc⟩; linarith), if_pos ⟨ha, hb⟩]
    · rw [if_neg (by rintro ⟨-, hc⟩; linarith),
        if_neg (by rintro ⟨-, hc⟩; linarith),
        if_neg (by rintro ⟨-, hc⟩; linarith), if_pos ⟨ha, hb⟩]

/-- Witness for the zone-selection theorem at the documented sample
points (-122, 37) and (10, 60). -/
theorem get_utm_zone_spec_witness :
    get_utm_zone 37 (-122) = ⌊((-122 : ℚ) + 180) / 6⌋ + 1 ∧
    get_utm_zone 60 10 = 32 :=
  ⟨get_utm_zone_spec.1 37 (-122) (by norm_num) (by norm_num),
   get_utm_zone_spec.2.1 60 10 (by norm_num) (by norm_num) (by norm_num) (by norm_num)⟩

/-- C2 (counterexample): at latitude 75, longitude 50 — inside the
claimed 72-84 band — the zone selection falls through to the standard
formula and returns 39, which is none of the four claimed wider zones, so
the band does not partition all longitudes into the zones 31/33/35/37. -/
theorem get_utm_zone_svalbard_band_not_partitioned :
    get_utm_zone 75 50 = 39 ∧
    ¬(get_utm_zone 75 50 = 31 ∨ get_utm_zone 75 50 = 33 ∨
      get_utm_zone 75 50 = 35 ∨ get_utm_zone 75 50 = 37) := by
  norm_num [get_utm_zone]

/-- C3 (amended): for the empty input series the conversion returns the
empty packet list — no packets at all, which the callers detect as the
no-data condition — rather than a document-only list; the document-only
result arises only when rows exist but none yields a valid position. -/
theorem build_czml_empty_eq_nil (mk : ℤ → Bool → Transformers) :
    build_czml mk [] = [] := rfl

/-- C3 (counterexample): on the empty series the conversion yields zero
packets, so the result does not consist of exactly the document packet. -/
theorem build_czml_empty_not_document_only :
    (build_czml mkRef []).length = 0 := rfl

/-- C8 (code evaluation at the failing input): for a processed record in
the normal path (index 20, heading present), the orientation sample
emitted is exactly the raw Hamilton product of the ENU-to-ECEF frame
quaternion with the (identity-corrected) local Euler quaternion.  No
normalization, magnitude check, identity substitution or diagnostic
appears anywhere in the pipeline. -/
theorem orientation_emitted_unnormalized :
    rowOrientation refT 0 20 (baseRow 7 none none) =
      some (seconds_between 0 7,
        quaternion_multiply
          (matrix_to_quaternion (enu_to_ecef_matrix 500000 6650000 refT))
          (quaternion_multiply get_precise_model_correction
            (euler_to_quaternion 100 0 0))) := rfl

/-- C10: in the UTM variant, every record with index below 20 that passes
the position guard gets the forced level-flight orientation: the sample is
the ENU-to-ECEF frame quaternion composed with the identity local
quaternion (which equals the frame quaternion itself), and the record's
heading, pitch and roll have no influence on the result. -/
theorem forced_level_flight_first_20 (t : Transformers) (start : ℤ) (i : ℕ)
    (row : Row) (ts : ℤ) (x y d : ℝ) (hi : i < 20) (hts : row.timestamp = some ts)
    (hx : row.utm_x = some x) (hy : row.utm_y = some y) (hd : row.depth = some d) :
    rowOrientation t start i row =
      some (seconds_between start ts,
        quaternion_multiply (matrix_to_quaternion (enu_to_ecef_matrix x y t))
          ⟨0, 0, 0, 1⟩) ∧
    quaternion_multiply (matrix_to_quaternion (enu_to_ecef_matrix x y t)) ⟨0, 0, 0, 1⟩ =
      matrix_to_quaternion (enu_to_ecef_matrix x y t) ∧
    ∀ h p r : Option ℝ,
      rowOrientation t start i { row with heading := h, pitch := p, roll := r } =
        rowOrientation t start i row := by
  refine ⟨?_, ?_, ?_⟩
  · simp [rowOrientation, hts, hx, hy, hd, hi]
  · ext <;> simp [quaternion_multiply]
  · intro h p r
    simp [rowOrientation, hts, hx, hy, hd, hi]

/-- Witness for the forced-level-flight theorem at row index 0 of a
concrete record. -/
theorem forced_level_flight_first_20_witness :
    rowOrientation refT 0 0 (baseRow 5 none none) =
      some (seconds_between 0 5,
        quaternion_multiply
          (matrix_to_quaternion (enu_to_ecef_matrix 500000 6650000 refT))
          ⟨0, 0, 0, 1⟩) :=
  (forced_level_flight_first_20 refT 0 0 (baseRow 5 none none) 5 500000 6650000
    (-1000) (by norm_num) rfl rfl rfl rfl).1

/-- Any sensor-label packet emitted for a row carries exactly the row's
availability interval. -/
theorem rowSensor_avail {i : ℕ} {row : Row} {s e : ℤ} {p : Packet}
    (h : rowSensor i row s e = some p) : childAvail p = some (s, e) := by
  unfold rowSensor at h
  split at h
  · split at h
    · injection h with h
      subst h
      rfl
    · exact Option.noConfusion h
  · exact Option.noConfusion h

/-- Any event-marker packet emitted for a row carries exactly the row's
availability interval. -/
theorem rowEvent_avail {row : Row} {t s e : ℤ} {p : Packet}
    (h : rowEvent row t s e = some p) : childAvail p = some (s, e) := by
  unfold rowEvent at h
  split at h
  · dsimp only at h
    split at h
    · split at h
      · injection h with h
        subst h
        rfl
      · exact Option.noConfusion h
    · exact Option.noConfusion h
  · exact Option.noConfusion h

/-- An event-marker packet is never counted as a sensor label. -/
theorem rowEvent_not_sensor {row : Row} {t s e : ℤ} {p : Packet}
    (h : rowEvent row t s e = some p) : isSensorPacket p = false := by
  unfold rowEvent at h
  split at h
  · dsimp only at h
    split at h
    · split at h
      · injection h with h
        subst h
        rfl
      · exact Option.noConfusion h
    · exact Option.noConfusion h
  · exact Option.noConfusion h

/-- Every packet in the child loop's output comes from some row of the
input and carries that row's availability interval [t, t+2]. -/
theorem childPackets_avail (i : ℕ) (rows : List Row) (p : Packet)
    (hp : p ∈ childPackets i rows) :
    ∃ r ∈ rows, ∃ ts, r.timestamp = some ts ∧ childAvail p = some (ts, ts + 2) := by
  induction rows generalizing i with
  | nil => simp [childPackets] at hp
  | cons r rs ih =>
    simp only [childPackets, List.mem_append] at hp
    rcases hp with hp | hp
    · refine ⟨r, List.mem_cons_self r rs, ?_⟩
      unfold rowChildren at hp
      cases hts : r.timestamp with
      | none => rw [hts] at hp; simp at hp
      | some ts =>
        rw [hts] at hp
        refine ⟨ts, rfl, ?_⟩
        rcases List.mem_append.mp hp with hmem | hmem
        · exact rowSensor_avail (Option.mem_def.mp (Option.mem_toList.mp hmem))
        · exact rowEvent_avail (Option.mem_def.mp (Option.mem_toList.mp hmem))
    · obtain ⟨r2, hr2, hrest⟩ := ih (i + 1) hp
      exact ⟨r2, List.mem_cons_of_mem r hr2, hrest⟩

/-- C4 (amended): every child packet of the output has availability
exactly [t, t+2] for its record's timestamp t, so — provided the record
timestamps lie within the series bounds, the data-model invariant — the
child interval starts inside the parent Hercules interval but may end up
to the 2-second display duration past the parent's end: it is contained
in [series start, series end + 2], not in the parent's interval. -/
theorem child_availability_bounds (mk : ℤ → Bool → Transformers) (data : List Row)
    (p : Packet)
    (hb : ∀ r ∈ data, ∀ ts : ℤ, r.timestamp = some ts →
      seriesStart data ≤ ts ∧ ts ≤ seriesEnd data)
    (hp : p ∈ build_czml mk data) (s e : ℤ) (hc : childAvail p = some (s, e)) :
    seriesStart data ≤ s ∧ e ≤ seriesEnd data + 2 ∧ e = s + 2 := by
  cases data with
  | nil => simp [build_czml] at hp
  | cons a rest =>
    unfold build_czml at hp
    dsimp only at hp
    split at hp
    · rw [List.mem_singleton] at hp
      subst hp
      simp [childAvail] at hc
    · simp only [List.mem_cons] at hp
      rcases hp with rfl | rfl | hp
      · simp [childAvail] at hc
      · simp [childAvail] at hc
      · obtain ⟨r, hr, ts, hts, hca⟩ := childPackets_avail 0 (a :: rest) p hp
        rw [hca] at hc
        injection hc with hc
        rw [Prod.mk.injEq] at hc
        obtain ⟨rfl, rfl⟩ := hc
        obtain ⟨hb1, hb2⟩ := hb r hr ts hts
        exact ⟨hb1, by omega, rfl⟩

/-- Witness for the child-availability bounds on a one-record series with
a sensor-eligible record. -/
theorem child_availability_bounds_witness :
    seriesStart [baseRow 1000 (some 2) (some 3)] ≤ 1000 ∧
    (1002 : ℤ) ≤ seriesEnd [baseRow 1000 (some 2) (some 3)] + 2 := by
  have h := child_availability_bounds mkRef [baseRow 1000 (some 2) (some 3)]
      (Packet.sensor "Sensor" 0 "Hercules" 1000 1002 2 3)
      (by
        intro r hr ts hts
        rw [List.mem_singleton] at hr
        subst hr
        simp only [baseRow, Option.some.injEq] at hts
        subst hts
        refine ⟨?_, ?_⟩ <;> simp [seriesStart, seriesEnd, baseRow])
      (List.mem_cons_of_mem _ (List.mem_cons_of_mem _ (List.mem_cons_self _ _)))
      1000 1002 rfl
  exact ⟨h.1, h.2.1⟩

/-- C4 (counterexample): on a one-record series the single sensor-label
child has availability [1000, 1002] while its parent Hercules packet has
availability [1000, 1000]; the child interval is not a subset of the
parent's. -/
theorem child_availability_exceeds_parent :
    ∃ ps os, build_czml mkRef [baseRow 1000 (some 2) (some 3)] =
      [Packet.document 1000 1000 1000 10,
       Packet.hercules 1000 1000 ps os,
       Packet.sensor "Sensor" 0 "Hercules" 1000 1002 2 3] ∧
      ¬((1002 : ℤ) ≤ 1000) :=
  ⟨_, _, rfl, by norm_num⟩

/-- A row passing the position guard yields a position entry. -/
theorem rowPos_isSome_of_hasPosFields (t : Transformers) (start : ℤ) (row : Row)
    (h : hasPosFields row = true) : (rowPos t start row).isSome = true := by
  unfold hasPosFields at h
  simp only [Bool.and_eq_true, Option.isSome_iff_exists] at h
  obtain ⟨⟨⟨⟨ts, hts⟩, x, hx⟩, y, hy⟩, d, hd⟩ := h
  simp [rowPos, hts, hx, hy, hd]

/-- With at least one row passing the position guard, the accumulated
position list is non-empty. -/
theorem posOrientLists_fst_ne_nil (t : Transformers) (start : ℤ) (i : ℕ)
    (rows : List Row) (hpos : ∃ r ∈ rows, hasPosFields r = true) :
    (posOrientLists t start i rows).1 ≠ [] := by
  induction rows generalizing i with
  | nil => simp at hpos
  | cons a rest ih =>
    rcases hpos with ⟨r, hr, hfields⟩
    rw [List.mem_cons] at hr
    rcases hr with rfl | hr
    · obtain ⟨v, hv⟩ :=
        Option.isSome_iff_exists.mp (rowPos_isSome_of_hasPosFields t start r hfields)
      simp [posOrientLists, hv]
    · have hrec := ih (i + 1) ⟨r, hr, hfields⟩
      unfold posOrientLists
      dsimp only
      intro hnil
      exact hrec (List.append_eq_nil.mp hnil).2

/-- Sensor-label counting distributes over packet-list concatenation. -/
theorem sensorCount_append (a b : List Packet) :
    sensorCount (a ++ b) = sensorCount a + sensorCount b := by
  simp [sensorCount, List.filter_append]

/-- One row with a timestamp contributes a sensor label exactly when its
index is a multiple of 5 and both designated sensor fields are present. -/
theorem sensorCount_rowChildren (i : ℕ) (row : Row)
    (hts : row.timestamp.isSome = true) :
    sensorCount (rowChildren i row) = if sensorEligible i row then 1 else 0 := by
  obtain ⟨ts, hts2⟩ := Option.isSome_iff_exists.mp hts
  have hev : sensorCount (rowEvent row ts ts (ts + 2)).toList = 0 := by
    cases hre : rowEvent row ts ts (ts + 2) with
    | none => rfl
    | some p => simp [sensorCount, rowEvent_not_sensor hre]
  unfold rowChildren
  rw [hts2]
  dsimp only
  rw [sensorCount_append, hev, Nat.add_zero]
  by_cases h5 : i % 5 = 0 <;>
    rcases ho : row.o2_concentration with _ | o2 <;>
    rcases ht : row.temperature with _ | temp <;>
      simp [rowSensor, sensorEligible, sensorCount, isSensorPacket, h5, ho, ht]

/-- The sensor labels among the child packets are counted exactly by the
stride-and-fields eligibility condition, provided every row carries a
timestamp. -/
theorem sensorCount_childPackets (i : ℕ) (rows : List Row)
    (hts : ∀ r ∈ rows, r.timestamp.isSome = true) :
    sensorCount (childPackets i rows) = countEligibleFrom i rows := by
  induction rows generalizing i with
  | nil => rfl
  | cons a rest ih =>
    unfold childPackets countEligibleFrom
    rw [sensorCount_append, sensorCount_rowChildren i a (hts a (List.mem_cons_self a rest)),
      ih (i + 1) (fun r hr => hts r (List.mem_cons_of_mem a hr))]

/-- C6: provided every record carries a timestamp (the data-model
invariant) and at least one record yields a valid position, the number of
sensor-label child packets emitted equals the number of records whose
0-based index is a multiple of the stride 5 and that carry both the O2
concentration and the temperature field. -/
theorem sensor_label_emission_count (mk : ℤ → Bool → Transformers) (data : List Row)
    (hts : ∀ r ∈ data, r.timestamp.isSome = true)
    (hpos : ∃ r ∈ data, hasPosFields r = true) :
    sensorCount (build_czml mk data) = countEligibleFrom 0 data := by
  cases data with
  | nil => simp at hpos
  | cons a rest =>
    have hne := posOrientLists_fst_ne_nil (initialize_transformers mk (a :: rest))
      (seriesStart (a :: rest)) 0 (a :: rest) hpos
    unfold build_czml
    dsimp only
    rw [if_neg (by simpa using hne)]
    have hskip : ∀ cp : List Packet,
        sensorCount (Packet.document (seriesStart (a :: rest)) (seriesEnd (a :: rest))
            (seriesStart (a :: rest)) 10 ::
          Packet.hercules (seriesStart (a :: rest)) (seriesEnd (a :: rest))
            (posOrientLists (initialize_transformers mk (a :: rest))
              (seriesStart (a :: rest)) 0 (a :: rest)).1
            (if (posOrientLists (initialize_transformers mk (a :: rest))
                  (seriesStart (a :: rest)) 0 (a :: rest)).2.isEmpty then none
             else some (posOrientLists (initialize_transformers mk (a :: rest))
                  (seriesStart (a :: rest)) 0 (a :: rest)).2) :: cp) =
          sensorCount cp := by
      intro cp
      simp [sensorCount, isSensorPacket]
    rw [hskip, sensorCount_childPackets 0 (a :: rest) hts]

/-- Witness for the sensor-label count on the 12-record fixture: records
at indices 5 and 10 each lack one sensor field, so exactly one
sensor-label packet (for index 0) is emitted. -/
theorem sensor_label_emission_count_witness :
    sensorCount (build_czml mkRef fixtureRows) = 1 := by
  rw [sensor_label_emission_count mkRef fixtureRows (by decide) (by decide)]
  decide

/-- C7: the packet synthesis is a pure function of the input series and
configuration — two runs on identical input give identical output — and
whenever some record yields a valid position the output sequence has the
fixed order: the document packet first, then the primary Hercules entity,
then the per-record child packets in record order. -/
theorem build_czml_deterministic_order (mk : ℤ → Bool → Transformers)
    (data : List Row) :
    build_czml mk data = build_czml mk data ∧
    ((∃ r ∈ data, hasPosFields r = true) →
      build_czml mk data =
        Packet.document (seriesStart data) (seriesEnd data) (seriesStart data) 10 ::
          Packet.hercules (seriesStart data) (seriesEnd data)
            (posOrientLists (initialize_transformers mk data) (seriesStart data) 0 data).1
            (if (posOrientLists (initialize_transformers mk data) (seriesStart data) 0
                  data).2.isEmpty then none
             else some (posOrientLists (initialize_transformers mk data)
                  (seriesStart data) 0 data).2) ::
          childPackets 0 data) := by
  refine ⟨rfl, fun hpos => ?_⟩
  cases data with
  | nil => simp at hpos
  | cons a rest =>
    have hne := posOrientLists_fst_ne_nil (initialize_transformers mk (a :: rest))
      (seriesStart (a :: rest)) 0 (a :: rest) hpos
    unfold build_czml
    dsimp only
    rw [if_neg (by simpa using hne)]

/-- Witness for the deterministic ordering on a concrete one-record
series. -/
theorem build_czml_deterministic_order_witness :
    build_czml mkRef [baseRow 0 none none] =
      Packet.document (seriesStart [baseRow 0 none none])
          (seriesEnd [baseRow 0 none none]) (seriesStart [baseRow 0 none none]) 10 ::
        Packet.hercules (seriesStart [baseRow 0 none none])
          (seriesEnd [baseRow 0 none none])
          (posOrientLists (initialize_transformers mkRef [baseRow 0 none none])
            (seriesStart [baseRow 0 none none]) 0 [baseRow 0 none none]).1
          (if (posOrientLists (initialize_transformers mkRef [baseRow 0 none none])
                (seriesStart [baseRow 0 none none]) 0 [baseRow 0 none none]).2.isEmpty
            then none
           else some (posOrientLists (initialize_transformers mkRef [baseRow 0 none none])
                (seriesStart [baseRow 0 none none]) 0 [baseRow 0 none none]).2) ::
        childPackets 0 [baseRow 0 none none] :=
  (build_czml_deterministic_order mkRef [baseRow 0 none none]).2
    ⟨baseRow 0 none none, List.mem_singleton_self _, by decide⟩

/-- Replacement leaves an empty string empty. -/
theorem pyReplace_nil (old : Char) (new : List Char) : pyReplace [] old new = [] := rfl

/-- Replacement passes over a character different from the pattern. -/
theorem pyReplace_cons_ne {c old : Char} (h : ¬c = old) (rest new : List Char) :
    pyReplace (c :: rest) old new = c :: pyReplace rest old new := by
  simp [pyReplace, h]

/-- Replacement substitutes an occurrence of the pattern. -/
theorem pyReplace_cons_eq (old : Char) (rest new : List Char) :
    pyReplace (old :: rest) old new = new ++ pyReplace rest old new := by
  simp [pyReplace]

/-- A decimal digit is none of the three separator characters removed or
rewritten by the id derivation. -/
theorem digit_ne_sep {c : Char} (h : c.isDigit = true) :
    ¬c = ':' ∧ ¬c = '-' ∧ ¬c = 'T' := by
  refine ⟨fun hc => ?_, fun hc => ?_, fun hc => ?_⟩ <;> subst hc <;>
    exact absurd h (by decide)

/-- On a canonical timestamp the id derivation keeps the fourteen digits
in order, turns the date/time separator T into an underscore, and keeps
the trailing Z. -/
theorem safe_timestamp_shape
    (y1 y2 y3 y4 mo1 mo2 d1 d2 hh1 hh2 mi1 mi2 ss1 ss2 : Char)
    (hy1 : y1.isDigit = true) (hy2 : y2.isDigit = true) (hy3 : y3.isDigit = true)
    (hy4 : y4.isDigit = true) (hmo1 : mo1.isDigit = true) (hmo2 : mo2.isDigit = true)
    (hd1 : d1.isDigit = true) (hd2 : d2.isDigit = true) (hq1 : hh1.isDigit = true)
    (hq2 : hh2.isDigit = true) (hmi1 : mi1.isDigit = true) (hmi2 : mi2.isDigit = true)
    (hs1 : ss1.isDigit = true) (hs2 : ss2.isDigit = true) :
    safe_timestamp [y1, y2, y3, y4, '-', mo1, mo2, '-', d1, d2, 'T',
        hh1, hh2, ':', mi1, mi2, ':', ss1, ss2, 'Z'] =
      [y1, y2, y3, y4, mo1, mo2, d1, d2, '_', hh1, hh2, mi1, mi2, ss1, ss2, 'Z'] := by
  have n1 := digit_ne_sep hy1
  have n2 := digit_ne_sep hy2
  have n3 := digit_ne_sep hy3
  have n4 := digit_ne_sep hy4
  have n5 := digit_ne_sep hmo1
  have n6 := digit_ne_sep hmo2
  have n7 := digit_ne_sep hd1
  have n8 := digit_ne_sep hd2
  have n9 := digit_ne_sep hq1
  have n10 := digit_ne_sep hq2
  have n11 := digit_ne_sep hmi1
  have n12 := digit_ne_sep hmi2
  have n13 := digit_ne_sep hs1
  have n14 := digit_ne_sep hs2
  simp [safe_timestamp, pyReplace_cons_eq, pyReplace_cons_ne, pyReplace_nil,
    n1.1, n1.2.1, n1.2.2, n2.1, n2.2.1, n2.2.2, n3.1, n3.2.1, n3.2.2,
    n4.1, n4.2.1, n4.2.2, n5.1, n5.2.1, n5.2.2, n6.1, n6.2.1, n6.2.2,
    n7.1, n7.2.1, n7.2.2, n8.1, n8.2.1, n8.2.2, n9.1, n9.2.1, n9.2.2,
    n10.1, n10.2.1, n10.2.2, n11.1, n11.2.1, n11.2.2, n12.1, n12.2.1, n12.2.2,
    n13.1, n13.2.1, n13.2.2, n14.1, n14.2.1, n14.2.2,
    (by decide : ¬('-' : Char) = ':'), (by decide : ¬('T' : Char) = ':'),
    (by decide : ¬('Z' : Char) = ':'), (by decide : ¬('T' : Char) = '-'),
    (by decide : ¬('Z' : Char) = '-'), (by decide : ¬('Z' : Char) = 'T')]

/-- C5: for canonical-format timestamps the event-marker id — the string
Event_{category}_{timestamp with separators stripped} — is equal for two
records exactly when their timestamps are equal: same category with
different timestamps gives distinct ids, and the same category with the
same timestamp collides. -/
theorem event_id_unique_iff (cat t1 t2 : List Char)
    (h1 : validTs t1 = true) (h2 : validTs t2 = true) :
    event_id cat t1 = event_id cat t2 ↔ t1 = t2 := by
  constructor
  · intro he
    have hsafe : safe_timestamp t1 = safe_timestamp t2 := by
      unfold event_id at he
      exact List.append_cancel_left he
    rw [validTs.eq_def] at h1
    split at h1
    · rw [validTs.eq_def] at h2
      split at h2
      · simp only [Bool.and_eq_true, decide_eq_true_eq, and_assoc] at h1 h2
        obtain ⟨hy1, hy2, hy3, hy4, hmo1, hmo2, hd1, hd2, hh1, hh2, hmi1, hmi2,
          hs1, hs2, e1, e2, e3, e4, e5, e6⟩ := h1
        obtain ⟨gy1, gy2, gy3, gy4, gmo1, gmo2, gd1, gd2, gh1, gh2, gmi1, gmi2,
          gs1, gs2, f1, f2, f3, f4, f5, f6⟩ := h2
        subst e1 e2 e3 e4 e5 e6 f1 f2 f3 f4 f5 f6
        rw [safe_timestamp_shape _ _ _ _ _ _ _ _ _ _ _ _ _ _
            hy1 hy2 hy3 hy4 hmo1 hmo2 hd1 hd2 hh1 hh2 hmi1 hmi2 hs1 hs2,
          safe_timestamp_shape _ _ _ _ _ _ _ _ _ _ _ _ _ _
            gy1 gy2 gy3 gy4 gmo1 gmo2 gd1 gd2 gh1 gh2 gmi1 gmi2 gs1 gs2] at hsafe
        simp only [List.cons.injEq, and_true] at hsafe
        obtain ⟨r1, r2, r3, r4, r5, r6, r7, r8, -, r9, r10, r11, r12, r13, r14⟩ := hsafe
        subst r1 r2 r3 r4 r5 r6 r7 r8 r9 r10 r11 r12 r13 r14
        rfl
      · simp at h2
    · simp at h1
  · rintro rfl
    rfl

/-- Witness for the event-id uniqueness on two concrete canonical
timestamps five seconds apart with the same category. -/
theorem event_id_unique_iff_witness :
    validTs "2023-11-01T21:47:50Z".data = true ∧
    validTs "2023-11-01T21:47:55Z".data = true ∧
    event_id "FREE_FORM".data "2023-11-01T21:47:50Z".data ≠
      event_id "FREE_FORM".data "2023-11-01T21:47:55Z".data := by
  refine ⟨by decide, by decide, fun he => ?_⟩
  have hts := (event_id_unique_iff "FREE_FORM".data
    "2023-11-01T21:47:50Z".data "2023-11-01T21:47:55Z".data
    (by decide) (by decide)).mp he
  exact absurd hts (by decide)

/-- The Hamilton product is multiplicative for the squared magnitude
(Euler's four-square identity on the source's component formulas). -/
theorem normSq_mul (q1 q2 : Quat) :
    normSq (quaternion_multiply q1 q2) = normSq q1 * normSq q2 := by
  unfold normSq quaternion_multiply
  dsimp only
  ring

/-- The half-angle Euler construction always produces a unit quaternion. -/
theorem normSq_euler (h p r : ℝ) : normSq (euler_to_quaternion h p r) = 1 := by
  have hY := Real.sin_sq_add_cos_sq (radians (pymod (90 - h) 360) * 0.5)
  have hP := Real.sin_sq_add_cos_sq (radians p * 0.5)
  have hR := Real.sin_sq_add_cos_sq (radians r * 0.5)
  unfold normSq euler_to_quaternion
  dsimp only
  linear_combination
    ((Real.sin (radians p * 0.5) ^ 2 + Real.cos (radians p * 0.5) ^ 2) *
        (Real.sin (radians (pymod (90 - h) 360) * 0.5) ^ 2 +
          Real.cos (radians (pymod (90 - h) 360) * 0.5) ^ 2)) * hR +
      (Real.sin (radians (pymod (90 - h) 360) * 0.5) ^ 2 +
        Real.cos (radians (pymod (90 - h) 360) * 0.5) ^ 2) * hP + hY

/-- Core of the trace-based branches: if the off-diagonal sums a, b, c and
the sqrt argument dd satisfy the rotation-matrix identity
dd^2 + a^2 + b^2 + c^2 = 4 dd, then the branch's quaternion components
have unit squared magnitude. -/
theorem sqrt_quarter_sum (a b c dd : ℝ) (hdd : 0 < dd)
    (hsum : dd ^ 2 + a ^ 2 + b ^ 2 + c ^ 2 = 4 * dd) :
    (0.25 * (Real.sqrt dd * 2)) ^ 2 + (a / (Real.sqrt dd * 2)) ^ 2 +
      (b / (Real.sqrt dd * 2)) ^ 2 + (c / (Real.sqrt dd * 2)) ^ 2 = 1 := by
  have hu : Real.sqrt dd ^ 2 = dd := Real.sq_sqrt hdd.le
  have h4 : (Real.sqrt dd * 2) ^ 2 = 4 * dd := by rw [mul_pow, hu]; ring
  have hne : (4 : ℝ) * dd ≠ 0 := by positivity
  rw [div_pow, div_pow, div_pow, mul_pow, h4]
  field_simp
  linear_combination hsum

/-- The trace-based matrix-to-quaternion conversion yields a unit
quaternion on every matrix of the ENU frame family (built from a sine and
cosine pair for longitude and latitude), in each of the four branches. -/
theorem normSq_matrix_to_quaternion_frame (s1 c1 s2 c2 : ℝ)
    (h1 : s1 ^ 2 + c1 ^ 2 = 1) (h2 : s2 ^ 2 + c2 ^ 2 = 1) :
    normSq (matrix_to_quaternion
      ⟨-s1, -s2 * c1, c2 * c1, c1, -s2 * s1, c2 * s1, 0, c2, s2⟩) = 1 := by
  have hs1le : s1 ≤ 1 := by nlinarith [sq_nonneg c1]
  have hs1ge : -1 ≤ s1 := by nlinarith [sq_nonneg c1]
  have hs2le : s2 ≤ 1 := by nlinarith [sq_nonneg c2]
  have hs2ge : -1 ≤ s2 := by nlinarith [sq_nonneg c2]
  unfold matrix_to_quaternion normSq
  dsimp only
  split_ifs with ht hb2 hb3
  · have hdd : 0 < -s1 + -s2 * s1 + s2 + 1 := by linarith
    have hsum : (-s1 + -s2 * s1 + s2 + 1) ^ 2 + (c2 - c2 * s1) ^ 2 +
        (c2 * c1 - 0) ^ 2 + (c1 - -s2 * c1) ^ 2 =
        4 * (-s1 + -s2 * s1 + s2 + 1) := by
      linear_combination (2 + 2 * s2) * h1 + ((1 - s1) ^ 2 + c1 ^ 2) * h2
    have hmain := sqrt_quarter_sum (c2 - c2 * s1) (c2 * c1 - 0) (c1 - -s2 * c1)
      (-s1 + -s2 * s1 + s2 + 1) hdd hsum
    linarith [hmain]
  · have hdd : 0 < 1 + -s1 - -s2 * s1 - s2 := by
      have hA := hb2.1
      linarith [hA, hs2le]
    have hsum : (1 + -s1 - -s2 * s1 - s2) ^ 2 + (-s2 * c1 + c1) ^ 2 +
        (c2 * c1 + 0) ^ 2 + (c2 - c2 * s1) ^ 2 =
        4 * (1 + -s1 - -s2 * s1 - s2) := by
      linear_combination (2 - 2 * s2) * h1 + ((1 - s1) ^ 2 + c1 ^ 2) * h2
    have hmain := sqrt_quarter_sum (-s2 * c1 + c1) (c2 * c1 + 0) (c2 - c2 * s1)
      (1 + -s1 - -s2 * s1 - s2) hdd hsum
    linarith [hmain]
  · have hdd : 0 < 1 + -s2 * s1 - -s1 - s2 := by linarith [hb3, hs1ge]
    have hsum : (1 + -s2 * s1 - -s1 - s2) ^ 2 + (-s2 * c1 + c1) ^ 2 +
        (c2 * s1 + c2) ^ 2 + (c2 * c1 - 0) ^ 2 =
        4 * (1 + -s2 * s1 - -s1 - s2) := by
      linear_combination (2 - 2 * s2) * h1 + ((1 + s1) ^ 2 + c1 ^ 2) * h2
    have hmain := sqrt_quarter_sum (-s2 * c1 + c1) (c2 * s1 + c2) (c2 * c1 - 0)
      (1 + -s2 * s1 - -s1 - s2) hdd hsum
    linarith [hmain]
  · have htle : -s1 + -s2 * s1 + s2 ≤ 0 := not_lt.mp ht
    have hb3le : -s2 * s1 ≤ s2 := not_lt.mp hb3
    have h1s1 : 0 < 1 + s1 := by
      rcases not_and_or.mp hb2 with hle | hle
      · have hA : -s1 ≤ -s2 * s1 := not_lt.mp hle
        by_contra hc
        push_neg at hc
        have hs1e : s1 = -1 := le_antisymm (by linarith) hs1ge
        subst hs1e
        nlinarith [hA, htle, hs2le]
      · have hB : -s1 ≤ s2 := not_lt.mp hle
        by_contra hc
        push_neg at hc
        have hs1e : s1 = -1 := le_antisymm (by linarith) hs1ge
        subst hs1e
        nlinarith [hB, htle, hs2le]
    have hs2nn : 0 ≤ s2 := by
      by_contra hc
      push_neg at hc
      have hneg : s2 * (1 + s1) < 0 := mul_neg_of_neg_of_pos hc h1s1
      nlinarith [hb3le]
    have hdd : 0 < 1 + s2 - -s1 - -s2 * s1 := by
      have hprod := mul_pos h1s1 (show (0 : ℝ) < 1 + s2 by linarith)
      nlinarith [hprod]
    have hsum : (1 + s2 - -s1 - -s2 * s1) ^ 2 + (c2 * c1 + 0) ^ 2 +
        (c2 * s1 + c2) ^ 2 + (c1 - -s2 * c1) ^ 2 =
        4 * (1 + s2 - -s1 - -s2 * s1) := by
      linear_combination (2 + 2 * s2) * h1 + ((1 + s1) ^ 2 + c1 ^ 2) * h2
    have hmain := sqrt_quarter_sum (c2 * c1 + 0) (c2 * s1 + c2) (c1 - -s2 * c1)
      (1 + s2 - -s1 - -s2 * s1) hdd hsum
    linarith [hmain]

/-- The quaternion of the ENU-to-ECEF frame matrix is always unit. -/
theorem normSq_matrix_enu (x y : ℝ) (t : Transformers) :
    normSq (matrix_to_quaternion (enu_to_ecef_matrix x y t)) = 1 := by
  unfold enu_to_ecef_matrix
  dsimp only
  exact normSq_matrix_to_quaternion_frame _ _ _ _
    (Real.sin_sq_add_cos_sq _) (Real.sin_sq_add_cos_sq _)

/-- Every orientation sample emitted for a single row is a unit
quaternion: both the forced-level path and the Euler path compose unit
factors with the Hamilton product. -/
theorem rowOrientation_unit (t : Transformers) (start : ℤ) (i : ℕ) (row : Row)
    (ts : ℤ) (q : Quat) (h : rowOrientation t start i row = some (ts, q)) :
    normSq q = 1 := by
  unfold rowOrientation at h
  split at h
  · split at h
    · injection h with h
      rw [Prod.mk.injEq] at h
      obtain ⟨-, rfl⟩ := h
      rw [normSq_mul, normSq_matrix_enu]
      norm_num [normSq]
    · split at h
      · injection h with h
        rw [Prod.mk.injEq] at h
        obtain ⟨-, rfl⟩ := h
        rw [normSq_mul, normSq_matrix_enu, normSq_mul, normSq_euler]
        norm_num [normSq, get_precise_model_correction]
      · exact Option.noConfusion h
  · exact Option.noConfusion h

/-- C9: every quaternion appended to the orientation array has squared
magnitude exactly 1 in exact arithmetic, hence magnitude 1 within the
claimed 1e-6 tolerance: the Euler half-angle construction, the trace-based
matrix conversion and the Hamilton product all preserve unit norm. -/
theorem orientation_samples_unit_norm (t : Transformers) (start : ℤ) (i : ℕ)
    (data : List Row) (ts : ℤ) (q : Quat)
    (h : (ts, q) ∈ (posOrientLists t start i data).2) :
    normSq q = 1 ∧ |Real.sqrt (normSq q) - 1| ≤ 1 / 1000000 := by
  have hq : normSq q = 1 := by
    induction data generalizing i with
    | nil => simp [posOrientLists] at h
    | cons a rest ih =>
      unfold posOrientLists at h
      dsimp only at h
      rw [List.mem_append] at h
      rcases h with h | h
      · exact rowOrientation_unit t start i a ts q
          (Option.mem_def.mp (Option.mem_toList.mp h))
      · exact ih (i + 1) h
  refine ⟨hq, ?_⟩
  rw [hq, Real.sqrt_one]
  norm_num

/-- Witness for the unit-norm property on a concrete one-row series. -/
theorem orientation_samples_unit_norm_witness :
    normSq (quaternion_multiply
      (matrix_to_quaternion (enu_to_ecef_matrix 500000 6650000 refT))
      ⟨0, 0, 0, 1⟩) = 1 :=
  (orientation_samples_unit_norm refT 1000 0 [baseRow 1000 none none] 0
    (quaternion_multiply
      (matrix_to_quaternion (enu_to_ecef_matrix 500000 6650000 refT))
      ⟨0, 0, 0, 1⟩)
    (List.mem_singleton_self _)).1

end ROV2CZML
